import Mathlib

/-!
Verification of the multi-tenant MCP authorization relay.

The development embeds, from the source:
  * `src/src/auth-provider.ts`: `isAuthError`, `StaticAuthProvider`,
    `BearerTokenAuthProvider` (its `getAuthHeaders` and `handleAuthError`);
  * `src/unnamed/part_001`: the per-request context record;
  * `src/unnamed/part_000`: the `/oauth/authorize` and `/oauth/token`
    Express handlers, with JavaScript truthiness for the parameter checks,
    `encodeURIComponent`-based form encoding for the forwarded token body,
    and axios's default behaviour (2xx resolves, anything else rejects
    carrying the response; the success path replies with `res.json`,
    whose status is 200).

Node's `AsyncLocalStorage` and the downstream call wrapper live outside
this repository, so they are modelled from the specification where a claim
needs them (a small cooperative scheduler whose shared store keys each
request-handling extent's context by task).
-/

/-- JavaScript truthiness of a `string | undefined` value: `undefined` and
the empty string are falsy, every other string is truthy. -/
def jsTruthy : Option String → Bool
  | none => false
  | some s => !s.isEmpty

/-- Per-request context record (`RequestContext` in `request-context`). -/
structure RequestContext where
  bearerToken : Option String
deriving DecidableEq, Repr

/-- Response attached to an axios error, as far as the auth layer reads it. -/
structure AxiosResponse where
  status : Nat
deriving DecidableEq, Repr

/-- The shape of an `AxiosError` that `auth-provider.ts` inspects:
`error.response` may be absent (transport-level failures). -/
structure AxiosError where
  response : Option AxiosResponse
deriving DecidableEq, Repr

/-- `isAuthError` from `auth-provider.ts`:
`error.response?.status === 401 || error.response?.status === 403`. -/
def isAuthError (error : AxiosError) : Bool :=
  (error.response.map AxiosResponse.status) == some 401 ||
    (error.response.map AxiosResponse.status) == some 403

/-- The error taxonomy the auth layer can surface. -/
inductive AuthError where
  | credentialUnavailable (message : String)
deriving DecidableEq, Repr

/-- The message of the error thrown by `BearerTokenAuthProvider.getAuthHeaders`
when no usable token is in scope. -/
def noTokenMessage : String :=
  "No bearer token found in request context. Ensure the client sends Authorization: Bearer <token> header."

/-- `StaticAuthProvider`: fixed headers set at construction. -/
structure StaticAuthProvider where
  headers : List (String × String)
deriving DecidableEq, Repr

/-- `StaticAuthProvider.getAuthHeaders` returns a copy of the constructed headers. -/
def StaticAuthProvider.getAuthHeaders (p : StaticAuthProvider) :
    Except AuthError (List (String × String)) :=
  .ok p.headers

/-- `StaticAuthProvider.handleAuthError`: the static provider cannot handle
auth errors, so it always declines the retry. -/
def StaticAuthProvider.handleAuthError (_p : StaticAuthProvider) (_error : AxiosError) : Bool :=
  false

/-- `BearerTokenAuthProvider.getAuthHeaders`, as a function of the request
context the ambient store resolves for the current call (`requestContext.getStore()`
may return `undefined`, and the context's `bearerToken` may be absent):
`const token = context?.bearerToken; if (!token) throw ...;
return { Authorization: "Bearer " + token }`. -/
def BearerTokenAuthProvider.getAuthHeaders (store : Option RequestContext) :
    Except AuthError (List (String × String)) :=
  let token : Option String := store.bind RequestContext.bearerToken
  if !(jsTruthy token) then
    .error (.credentialUnavailable noTokenMessage)
  else
    .ok [("Authorization", "Bearer " ++ token.getD "")]

/-- `BearerTokenAuthProvider.handleAuthError`: the bearer-token provider cannot
refresh tokens, so it always declines the retry. -/
def BearerTokenAuthProvider.handleAuthError (_error : AxiosError) : Bool :=
  false

/-- Modelled from the spec: the Downstream Call Wrapper of section 4.4 lives in
the external protocol-dispatch package, not in this repository. Per the spec it
resolves headers through the provider immediately before each call and issues
the downstream call only when header resolution succeeds; a header-resolution
failure surfaces without any downstream call. The second component counts the
downstream calls issued. -/
def callWithAuth {α : Type} (ctx : Option RequestContext)
    (issue : List (String × String) → α) : Except AuthError α × Nat :=
  match BearerTokenAuthProvider.getAuthHeaders ctx with
  | .error e => (.error e, 0)
  | .ok hs => (.ok (issue hs), 1)

mutual
/-- A JSON value, as far as the relay's bodies need. -/
inductive JsonVal where
  | str (s : String)
  | num (n : Nat)
  | obj (fields : JsonFields)
deriving DecidableEq, Repr
/-- The field list of a JSON object. -/
inductive JsonFields where
  | nil
  | cons (key : String) (val : JsonVal) (rest : JsonFields)
deriving DecidableEq, Repr
end

/-- Look a key up in a JSON object's field list. -/
def JsonFields.lookup : JsonFields → String → Option JsonVal
  | .nil, _ => none
  | .cons k v rest, key => if k == key then some v else rest.lookup key

/-- The `error` field of a JSON object body, when it is a string. -/
def JsonVal.errorCode : JsonVal → Option String
  | .obj fields =>
      match fields.lookup "error" with
      | some (.str s) => some s
      | _ => none
  | _ => none

/-- A two-field JSON object, the shape of every error body the relay builds. -/
def jsonObj2 (k1 : String) (v1 : String) (k2 : String) (v2 : String) : JsonVal :=
  .obj (.cons k1 (.str v1) (.cons k2 (.str v2) .nil))

/-- The `invalid_request` error body the relay produces. -/
def invalidRequestBody (desc : String) : JsonVal :=
  jsonObj2 "error" "invalid_request" "error_description" desc

/-- The `server_error` body the relay produces when no downstream response exists. -/
def serverErrorBody (desc : String) : JsonVal :=
  jsonObj2 "error" "server_error" "error_description" desc

/-- The query parameters the `/oauth/authorize` handler destructures. -/
structure AuthorizeQuery where
  client_id : Option String
  redirect_uri : Option String
  state : Option String
  response_type : Option String
  resource : Option String
deriving DecidableEq, Repr

/-- Outcome of the `/oauth/authorize` handler: a JSON error response, or a
redirect to the downstream authorization endpoint carrying the given query
parameters. -/
inductive AuthorizeResult where
  | errorResponse (status : Nat) (body : JsonVal)
  | redirect (params : List (String × String))
deriving DecidableEq, Repr

/-- Whether an authorize outcome is a redirect carrying the given parameter. -/
def AuthorizeResult.carriesParam : AuthorizeResult → String × String → Bool
  | .redirect ps, kv => ps.contains kv
  | .errorResponse _ _, _ => false

/-- The `/oauth/authorize` handler: rejects when `client_id`, `redirect_uri`
or `state` is falsy, otherwise redirects downstream setting exactly
`client_id`, `redirect_uri`, `state` and `response_type` (the inbound value
when truthy, `"code"` otherwise); the destructured `resource` is never set. -/
def oauthAuthorize (q : AuthorizeQuery) : AuthorizeResult :=
  if !(jsTruthy q.client_id) || !(jsTruthy q.redirect_uri) || !(jsTruthy q.state) then
    .errorResponse 400
      (invalidRequestBody "Missing required parameters: client_id, redirect_uri, or state")
  else
    .redirect
      [("client_id", q.client_id.getD ""),
       ("redirect_uri", q.redirect_uri.getD ""),
       ("state", q.state.getD ""),
       ("response_type", if jsTruthy q.response_type then q.response_type.getD "" else "code")]

/-- One hexadecimal digit, upper case, as `encodeURIComponent` produces. -/
def hexDigit (n : Nat) : Char :=
  if n < 10 then Char.ofNat (48 + n) else Char.ofNat (55 + n)

/-- Percent-encoding of one byte. -/
def byteToPercent (b : Nat) : String :=
  String.mk ['%', hexDigit (b / 16 % 16), hexDigit (b % 16)]

/-- UTF-8 bytes of a character, as a list of byte values. -/
def utf8Bytes (c : Char) : List Nat :=
  let n := c.toNat
  if n < 128 then [n]
  else if n < 2048 then [192 + n / 64, 128 + n % 64]
  else if n < 65536 then [224 + n / 4096, 128 + n / 64 % 64, 128 + n % 64]
  else [240 + n / 262144, 128 + n / 4096 % 64, 128 + n / 64 % 64, 128 + n % 64]

/-- Characters `encodeURIComponent` leaves unescaped: ASCII letters, digits,
and `- _ . ! ~ * ' ( )`. -/
def uriUnescaped (c : Char) : Bool :=
  (65 ≤ c.toNat && c.toNat ≤ 90) || (97 ≤ c.toNat && c.toNat ≤ 122) ||
    (48 ≤ c.toNat && c.toNat ≤ 57) ||
    [45, 95, 46, 33, 126, 42, 39, 40, 41].contains c.toNat

/-- JavaScript's `encodeURIComponent`. -/
def encodeURIComponent (s : String) : String :=
  String.join (s.data.map fun c =>
    if uriUnescaped c then String.singleton c
    else String.join ((utf8Bytes c).map byteToPercent))

/-- The `transformRequest` of the token handler: for every key of the payload
object, `encodeURIComponent(key)=encodeURIComponent(value || '')`, joined
with `&`. An absent value still contributes its key, with the empty string. -/
def formEncode (fields : List (String × Option String)) : String :=
  String.intercalate "&" (fields.map fun kv =>
    encodeURIComponent kv.1 ++ "=" ++ encodeURIComponent (kv.2.getD ""))

/-- The body parameters the `/oauth/token` handler destructures. -/
structure TokenBody where
  grant_type : Option String
  code : Option String
  redirect_uri : Option String
  client_id : Option String
  client_secret : Option String
deriving DecidableEq, Repr

/-- What the downstream token endpoint does with a forwarded body: respond
with a status and JSON body, or fail at the transport level. -/
inductive DownstreamResult where
  | respond (status : Nat) (body : JsonVal)
  | networkError
deriving DecidableEq, Repr

/-- An HTTP response the relay sends back to its caller. -/
structure HttpResponse where
  status : Nat
  body : JsonVal
deriving DecidableEq, Repr

/-- The form-urlencoded payload the token handler forwards: the five
destructured fields, in object-literal order, each defaulted to `''`. -/
def tokenForwardPayload (b : TokenBody) : String :=
  formEncode
    [("grant_type", b.grant_type), ("code", b.code), ("redirect_uri", b.redirect_uri),
     ("client_id", b.client_id), ("client_secret", b.client_secret)]

/-- The `/oauth/token` handler. Validation uses JavaScript truthiness:
missing `client_id` or `client_secret`, or missing `code` under
`grant_type === 'authorization_code'`, yields a 400 without forwarding.
Otherwise the encoded payload goes downstream via axios: a 2xx status
resolves and is answered with `res.json(data)` (status 200); any other
status rejects with the response attached, which the catch branch forwards
verbatim; a transport failure yields a 500 `server_error`. The first
component is the payload forwarded downstream, `none` when no downstream
call is made. -/
def oauthToken (downstream : String → DownstreamResult) (b : TokenBody) :
    Option String × HttpResponse :=
  if !(jsTruthy b.client_id) || !(jsTruthy b.client_secret) then
    (none, ⟨400, invalidRequestBody "Missing client_id or client_secret"⟩)
  else if b.grant_type == some "authorization_code" && !(jsTruthy b.code) then
    (none, ⟨400, invalidRequestBody "Missing authorization code"⟩)
  else
    let payload := tokenForwardPayload b
    match downstream payload with
    | .respond st bd =>
        if 200 ≤ st && st < 300 then (some payload, ⟨200, bd⟩)
        else (some payload, ⟨st, bd⟩)
    | .networkError =>
        (some payload, ⟨500, serverErrorBody "Internal server error during token exchange"⟩)

/-- One step a request-handling task can take under cooperative scheduling:
establish the context binding (`requestContext.run` begins), suspend at an
await point, issue a downstream call (headers resolved through
`BearerTokenAuthProvider.getAuthHeaders` against the ambient store), or end
the handling extent (the binding is discarded). -/
inductive ReqAction where
  | enter
  | yield
  | call
  | teardown
deriving DecidableEq, Repr

instance {ε α : Type} [DecidableEq ε] [DecidableEq α] : DecidableEq (Except ε α) := fun x y =>
  match x, y with
  | .ok a, .ok b =>
      if h : a = b then isTrue (by rw [h]) else isFalse (by intro hh; cases hh; exact h rfl)
  | .error a, .error b =>
      if h : a = b then isTrue (by rw [h]) else isFalse (by intro hh; cases hh; exact h rfl)
  | .ok _, .error _ => isFalse (by intro hh; cases hh)
  | .error _, .ok _ => isFalse (by intro hh; cases hh)

/-- A request-handling task: its request context, the actions still to run,
and the log of header resolutions observed by its downstream calls. -/
structure SchedTask where
  ctx : RequestContext
  program : List ReqAction
  log : List (Except AuthError (List (String × String)))
deriving DecidableEq, Repr

/-- Modelled from the spec: Node's `AsyncLocalStorage` is not part of this
repository. Section 4.1 contracts that `run(context, fn)` makes `current()`
return exactly `context` throughout `fn`'s dynamic extent, across suspension
points and arbitrary interleavings, and none outside every extent. The store
is the shared per-process structure tracking, per task (one task per
request-handling extent), the context bound to that extent. -/
structure SchedState where
  store : List (Nat × RequestContext)
  tasks : List SchedTask
deriving DecidableEq, Repr

/-- What `requestContext.getStore()` returns inside task `i`: the context the
store currently binds to that task's extent, if any. -/
def SchedState.currentContext (s : SchedState) (i : Nat) : Option RequestContext :=
  s.store.lookup i

/-- The effect of one action of task `i` (whose task record is `t`): `enter`
binds the task's context in the store, `yield` only advances, `call` resolves
headers through `BearerTokenAuthProvider.getAuthHeaders` against the current
store binding and logs the outcome, `teardown` removes the binding. -/
def applyAction (s : SchedState) (i : Nat) (t : SchedTask) :
    ReqAction → List ReqAction → SchedState
  | .enter, rest =>
      { store := (i, t.ctx) :: s.store,
        tasks := s.tasks.set i { t with program := rest } }
  | .yield, rest =>
      { s with tasks := s.tasks.set i { t with program := rest } }
  | .call, rest =>
      { s with
        tasks := s.tasks.set i
          { t with
            program := rest
            log := t.log ++ [BearerTokenAuthProvider.getAuthHeaders (s.currentContext i)] } }
  | .teardown, rest =>
      { store := s.store.filter (fun p => p.1 != i),
        tasks := s.tasks.set i { t with program := rest } }

/-- Run the next action of task `i`; a no-op when the task is finished or
absent (the scheduler index is unconstrained). -/
def stepTask (s : SchedState) (i : Nat) : SchedState :=
  match s.tasks[i]? with
  | none => s
  | some t =>
    match t.program with
    | [] => s
    | a :: rest => applyAction s i t a rest

/-- Run a whole schedule: at each step the scheduler picks which task advances;
any interleaving of the tasks' suspension points is some such schedule. -/
def runSched (s : SchedState) : List Nat → SchedState
  | [] => s
  | i :: rest => runSched (stepTask s i) rest

/-- The initial state for a set of inbound requests: empty store, one task per
request with its extracted context, its program, and an empty log. -/
def initState (ts : List (RequestContext × List ReqAction)) : SchedState :=
  { store := [], tasks := ts.map fun p => ⟨p.1, p.2, []⟩ }

/-- The log of task `i` (empty when there is no such task). -/
def taskLog (s : SchedState) (i : Nat) :
    List (Except AuthError (List (String × String))) :=
  match s.tasks[i]? with
  | some t => t.log
  | none => []

/-- Whether every successful header resolution in a log produced exactly the
`Authorization: Bearer` header of the given token. -/
def logUsesOnly (tok : String) (log : List (Except AuthError (List (String × String)))) : Bool :=
  log.all fun e =>
    match e with
    | .ok hs => hs == [("Authorization", "Bearer " ++ tok)]
    | .error _ => true

/-- Store invariant: the context the store binds to a task's extent, when
present, is that task's own context. -/
def storeConsistent (s : SchedState) : Prop :=
  ∀ (i : Nat) (t : SchedTask), s.tasks[i]? = some t →
    s.currentContext i = none ∨ s.currentContext i = some t.ctx

/-- Log invariant: every header resolution a task has observed either failed,
or produced the bearer header of that task's own token. -/
def logsConsistent (s : SchedState) : Prop :=
  ∀ (i : Nat) (t : SchedTask), s.tasks[i]? = some t → ∀ e ∈ t.log,
    (∃ msg, e = .error (.credentialUnavailable msg)) ∨
    (∃ tok, t.ctx.bearerToken = some tok ∧ e = .ok [("Authorization", "Bearer " ++ tok)])

/-- The combined scheduler invariant. -/
def SchedInv (s : SchedState) : Prop :=
  storeConsistent s ∧ logsConsistent s

/-- Demonstration requests for the isolation property: two concurrent
requests with distinct tokens. -/
def isoDemoTasks : List (RequestContext × List ReqAction) :=
  [(⟨some "token-one"⟩, [.enter, .call, .yield, .call, .teardown]),
   (⟨some "token-two"⟩, [.enter, .yield, .call, .teardown])]

/-- A schedule interleaving the two demonstration requests at every
suspension point. -/
def isoDemoSched : List Nat :=
  [0, 1, 0, 1, 0, 1, 0, 1, 0]
theorem jsTruthy_none : jsTruthy none = false := rfl

theorem jsTruthy_some_empty : jsTruthy (some "") = false := rfl

theorem jsTruthy_some {s : String} (h : s ≠ "") : jsTruthy (some s) = true := by
  have hE : s.isEmpty = false := by
    cases hE : s.isEmpty
    · rfl
    · exact absurd ((String.isEmpty_iff s).mp hE) h
  simp [jsTruthy, hE]

theorem errorCode_invalidRequestBody (desc : String) :
    (invalidRequestBody desc).errorCode = some "invalid_request" := rfl

/-- C5: `handleAuthError` returns false on every input for both required
Auth Provider variants; neither the static nor the context-bound provider
ever requests a retry. -/
theorem handleAuthError_never_retries (p : StaticAuthProvider) (e1 e2 : AxiosError) :
    p.handleAuthError e1 = false ∧ BearerTokenAuthProvider.handleAuthError e2 = false :=
  ⟨rfl, rfl⟩

/-- C8: a downstream failure is classified as authentication-related exactly
when its response status is 401 or 403. -/
theorem isAuthError_iff_status_401_or_403 (e : AxiosError) :
    isAuthError e = true ↔ ∃ r, e.response = some r ∧ (r.status = 401 ∨ r.status = 403) := by
  obtain ⟨resp⟩ := e
  cases resp with
  | none => simp [isAuthError]
  | some r => obtain ⟨st⟩ := r; simp [isAuthError]

/-- C2: with no active request context, or a context whose bearer token is
absent or empty, `BearerTokenAuthProvider.getAuthHeaders` fails with
`CredentialUnavailable`, and the downstream call wrapper issues zero
downstream calls. -/
theorem getAuthHeaders_fails_without_token {α : Type} (ctx : Option RequestContext)
    (issue : List (String × String) → α)
    (h : ctx = none ∨ ∃ c, ctx = some c ∧ (c.bearerToken = none ∨ c.bearerToken = some "")) :
    BearerTokenAuthProvider.getAuthHeaders ctx =
      .error (.credentialUnavailable noTokenMessage) ∧
    callWithAuth ctx issue = (.error (.credentialUnavailable noTokenMessage), 0) := by
  have hh : BearerTokenAuthProvider.getAuthHeaders ctx =
      .error (.credentialUnavailable noTokenMessage) := by
    rcases h with rfl | ⟨c, rfl, hc⟩
    · rfl
    · obtain ⟨bt⟩ := c
      rcases hc with hc | hc <;> (simp only at hc; subst hc; rfl)
  refine ⟨hh, ?_⟩
  unfold callWithAuth
  rw [hh]

/-- C2 witness: the concrete no-context call fails with `CredentialUnavailable`
and issues zero downstream calls. -/
theorem getAuthHeaders_fails_without_token_witness :
    BearerTokenAuthProvider.getAuthHeaders none =
      .error (.credentialUnavailable noTokenMessage) ∧
    callWithAuth none (fun hs => hs) = (.error (.credentialUnavailable noTokenMessage), 0) :=
  getAuthHeaders_fails_without_token none (fun hs => hs) (Or.inl rfl)

/-- C10: for an active context whose bearer token is a non-empty string `t`,
`getAuthHeaders` returns exactly the single-entry header map
`Authorization: Bearer t`. -/
theorem getAuthHeaders_exact_bearer (c : RequestContext) (t : String)
    (h : c.bearerToken = some t) (hne : t ≠ "") :
    BearerTokenAuthProvider.getAuthHeaders (some c) =
      .ok [("Authorization", "Bearer " ++ t)] := by
  unfold BearerTokenAuthProvider.getAuthHeaders
  simp [h, jsTruthy_some hne]

/-- C10 witness: a concrete context with token `tok` yields exactly the
`Authorization: Bearer tok` header. -/
theorem getAuthHeaders_exact_bearer_witness :
    BearerTokenAuthProvider.getAuthHeaders (some ⟨some "tok"⟩) =
      .ok [("Authorization", "Bearer " ++ "tok")] :=
  getAuthHeaders_exact_bearer ⟨some "tok"⟩ "tok" rfl (by decide)

/-- C6: an authorize request with `client_id`, `redirect_uri` or `state`
absent from the query is answered with a 400 `invalid_request` error
response, and no redirect to the downstream authorization server occurs. -/
theorem authorize_missing_param_rejected (q : AuthorizeQuery)
    (h : q.client_id = none ∨ q.redirect_uri = none ∨ q.state = none) :
    oauthAuthorize q = .errorResponse 400
      (invalidRequestBody "Missing required parameters: client_id, redirect_uri, or state") := by
  unfold oauthAuthorize
  rcases h with h | h | h <;> simp [h, jsTruthy_none]

/-- C6 witness: an authorize request missing only `state` is rejected with
the 400 `invalid_request` response. -/
theorem authorize_missing_param_rejected_witness :
    oauthAuthorize ⟨some "id", some "https://x", none, none, none⟩ = .errorResponse 400
      (invalidRequestBody "Missing required parameters: client_id, redirect_uri, or state") :=
  authorize_missing_param_rejected _ (Or.inr (Or.inr rfl))

/-- C7: a token request with `client_id` or `client_secret` absent, or with
`grant_type` equal to `authorization_code` and `code` absent, is answered
with a 400 `invalid_request` error and nothing is forwarded downstream. -/
theorem token_missing_param_rejected (d : String → DownstreamResult) (b : TokenBody)
    (h : b.client_id = none ∨ b.client_secret = none ∨
      (b.grant_type = some "authorization_code" ∧ b.code = none)) :
    (oauthToken d b).1 = none ∧ (oauthToken d b).2.status = 400 ∧
      (oauthToken d b).2.body.errorCode = some "invalid_request" := by
  unfold oauthToken
  rcases h with h | h | ⟨hg, hc⟩
  · simp [h, jsTruthy_none, errorCode_invalidRequestBody]
  · simp [h, jsTruthy_none, errorCode_invalidRequestBody]
  · by_cases h1 : (!(jsTruthy b.client_id) || !(jsTruthy b.client_secret)) = true
    · simp [h1, errorCode_invalidRequestBody]
    · simp [h1, hg, hc, jsTruthy_none, errorCode_invalidRequestBody]

/-- C7 witness: a token request naming only a client but no secret is
rejected with a 400 `invalid_request` response and nothing is forwarded. -/
theorem token_missing_param_rejected_witness :
    (oauthToken (fun _ => .networkError) ⟨some "authorization_code", none, none, some "id", none⟩).1 = none ∧
    (oauthToken (fun _ => .networkError) ⟨some "authorization_code", none, none, some "id", none⟩).2.status = 400 ∧
    (oauthToken (fun _ => .networkError) ⟨some "authorization_code", none, none, some "id", none⟩).2.body.errorCode =
      some "invalid_request" :=
  token_missing_param_rejected _ _ (Or.inr (Or.inl rfl))

/-- C9: both endpoints treat a required parameter that is present but empty
as missing: empty-string `client_id`, `redirect_uri` or `state` on authorize,
and empty-string `client_id` or `client_secret`, or empty `code` under
`grant_type` `authorization_code`, on token, are rejected with a 400
`invalid_request` response and no downstream call. -/
theorem empty_string_params_rejected (q : AuthorizeQuery)
    (d : String → DownstreamResult) (b : TokenBody)
    (hq : q.client_id = some "" ∨ q.redirect_uri = some "" ∨ q.state = some "")
    (hb : b.client_id = some "" ∨ b.client_secret = some "" ∨
      (b.grant_type = some "authorization_code" ∧ b.code = some "")) :
    oauthAuthorize q = .errorResponse 400
      (invalidRequestBody "Missing required parameters: client_id, redirect_uri, or state") ∧
    (oauthToken d b).1 = none ∧ (oauthToken d b).2.status = 400 ∧
      (oauthToken d b).2.body.errorCode = some "invalid_request" := by
  constructor
  · unfold oauthAuthorize
    rcases hq with h | h | h <;> simp [h, jsTruthy_some_empty]
  · unfold oauthToken
    rcases hb with h | h | ⟨hg, hc⟩
    · simp [h, jsTruthy_some_empty, errorCode_invalidRequestBody]
    · simp [h, jsTruthy_some_empty, errorCode_invalidRequestBody]
    · by_cases h1 : (!(jsTruthy b.client_id) || !(jsTruthy b.client_secret)) = true
      · simp [h1, errorCode_invalidRequestBody]
      · simp [h1, hg, hc, jsTruthy_some_empty, errorCode_invalidRequestBody]

/-- C9 witness: a concrete authorize request with `state=""` and a concrete
token request with `code=""` under `authorization_code` are both rejected
with 400 `invalid_request` and no downstream call. -/
theorem empty_string_params_rejected_witness :
    oauthAuthorize ⟨some "id", some "https://x", some "", none, none⟩ = .errorResponse 400
      (invalidRequestBody "Missing required parameters: client_id, redirect_uri, or state") ∧
    (oauthToken (fun _ => .networkError)
        ⟨some "authorization_code", some "", some "https://x", some "id", some "sec"⟩).1 = none ∧
    (oauthToken (fun _ => .networkError)
        ⟨some "authorization_code", some "", some "https://x", some "id", some "sec"⟩).2.status = 400 ∧
    (oauthToken (fun _ => .networkError)
        ⟨some "authorization_code", some "", some "https://x", some "id", some "sec"⟩).2.body.errorCode =
      some "invalid_request" :=
  empty_string_params_rejected _ _ _ (Or.inr (Or.inr rfl)) (Or.inr (Or.inr ⟨rfl, rfl⟩))

/-- C3 counterexample: an authorize request carrying `resource` (and an empty
`response_type`) is redirected WITHOUT its `resource` parameter, and with
`response_type` rewritten to `code`; the redirect does not carry the same
query parameters as the inbound request. -/
theorem authorize_same_params_counterexample :
    oauthAuthorize ⟨some "id", some "https://x", some "s", some "", some "https://r"⟩ =
      .redirect [("client_id", "id"), ("redirect_uri", "https://x"), ("state", "s"),
        ("response_type", "code")] ∧
    (oauthAuthorize ⟨some "id", some "https://x", some "s", some "", some "https://r"⟩).carriesParam
      ("resource", "https://r") = false ∧
    (oauthAuthorize ⟨some "id", some "https://x", some "s", some "", some "https://r"⟩).carriesParam
      ("response_type", "") = false := by
  refine ⟨rfl, ?_, ?_⟩ <;> decide

/-- C3 (amended): for an authorize request with non-empty `client_id`,
`redirect_uri` and `state`, the relay redirects to the downstream
authorization endpoint carrying exactly those three parameters unchanged plus
`response_type` (the inbound value when non-empty, `code` otherwise); other
inbound parameters such as `resource` are not forwarded. -/
theorem authorize_redirect_params (q : AuthorizeQuery) (cid ruri st : String)
    (hc : q.client_id = some cid) (hc2 : cid ≠ "")
    (hr : q.redirect_uri = some ruri) (hr2 : ruri ≠ "")
    (hs : q.state = some st) (hs2 : st ≠ "") :
    oauthAuthorize q = .redirect
      [("client_id", cid), ("redirect_uri", ruri), ("state", st),
       ("response_type",
         match q.response_type with
         | none => "code"
         | some rt => if rt = "" then "code" else rt)] := by
  unfold oauthAuthorize
  rw [hc, hr, hs]
  simp only [jsTruthy_some hc2, jsTruthy_some hr2, jsTruthy_some hs2, Bool.not_true,
    Bool.or_self, Bool.false_or, if_neg (by simp : ¬((false || false || false) = true))]
  cases hrt : q.response_type with
  | none => simp [jsTruthy_none]
  | some rt =>
      by_cases h : rt = ""
      · subst h; simp [jsTruthy_some_empty]
      · simp [jsTruthy_some h, h]

/-- C3 witness: a concrete authorize request with all three required
parameters and no `response_type` is redirected with exactly those parameters
plus `response_type=code`. -/
theorem authorize_redirect_params_witness :
    oauthAuthorize ⟨some "id", some "https://x", some "s", none, none⟩ =
      .redirect [("client_id", "id"), ("redirect_uri", "https://x"), ("state", "s"),
        ("response_type", "code")] :=
  authorize_redirect_params _ "id" "https://x" "s" rfl (by decide) rfl (by decide) rfl (by decide)

/-- The five-field token request body of the round-trip property. -/
def c4Body : TokenBody :=
  ⟨some "authorization_code", some "abc", some "https://x", some "id", some "sec"⟩

/-- A downstream `invalid_grant` error body. -/
def invalidGrantBody : JsonVal := .obj (.cons "error" (.str "invalid_grant") .nil)

/-- Reduction of the token handler on the concrete five-field body: validation
passes and the encoded payload goes downstream. -/
theorem oauthToken_c4Body (d : String → DownstreamResult) :
    oauthToken d c4Body =
      (match d (tokenForwardPayload c4Body) with
       | .respond stc bd =>
           if 200 ≤ stc && stc < 300
           then (some (tokenForwardPayload c4Body), ⟨200, bd⟩)
           else (some (tokenForwardPayload c4Body), ⟨stc, bd⟩)
       | .networkError => (some (tokenForwardPayload c4Body),
           ⟨500, serverErrorBody "Internal server error during token exchange"⟩)) := rfl

/-- C4 counterexample: on the five-field body, a downstream 201 response is
returned to the caller with status 200, not the downstream status. -/
theorem token_relay_status_counterexample :
    (oauthToken (fun _ => .respond 201 (.obj (.cons "access_token" (.str "tok") .nil))) c4Body).2 =
      ⟨200, .obj (.cons "access_token" (.str "tok") .nil)⟩ ∧
    (oauthToken (fun _ => .respond 201 (.obj (.cons "access_token" (.str "tok") .nil))) c4Body).2.status ≠ 201 := by
  exact ⟨rfl, by decide⟩

/-- C4 (amended): on the five-field body the relay forwards a form-urlencoded
payload containing all five fields to the downstream token endpoint and
returns the downstream JSON body verbatim; the downstream status is forwarded
verbatim for non-2xx responses (including a 400 `invalid_grant`), while 2xx
responses are returned with status 200. -/
theorem token_relay_roundtrip (d : String → DownstreamResult) :
    (oauthToken d c4Body).1 = some (tokenForwardPayload c4Body) ∧
    tokenForwardPayload c4Body =
      "grant_type=authorization_code&code=abc&redirect_uri=https%3A%2F%2Fx&client_id=id&client_secret=sec" ∧
    (∀ stc bd, d (tokenForwardPayload c4Body) = .respond stc bd → 200 ≤ stc ∧ stc < 300 →
      (oauthToken d c4Body).2 = ⟨200, bd⟩) ∧
    (∀ stc bd, d (tokenForwardPayload c4Body) = .respond stc bd → ¬(200 ≤ stc ∧ stc < 300) →
      (oauthToken d c4Body).2 = ⟨stc, bd⟩) := by
  refine ⟨?_, rfl, ?_, ?_⟩
  · rw [oauthToken_c4Body]
    cases hd : d (tokenForwardPayload c4Body) with
    | respond stc bd => by_cases h : (200 ≤ stc && stc < 300) = true <;> simp [h]
    | networkError => rfl
  · intro stc bd hd hrange
    rw [oauthToken_c4Body, hd]
    have hb : (200 ≤ stc && stc < 300) = true := by
      simp [hrange.1, hrange.2]
    simp [hb]
  · intro stc bd hd hrange
    rw [oauthToken_c4Body, hd]
    have hb : (200 ≤ stc && stc < 300) = false := by
      rcases Nat.lt_or_ge stc 200 with h | h
    
      · simp [Nat.not_le_of_lt h]
      · have : ¬(stc < 300) := fun hlt => hrange ⟨h, hlt⟩
        simp [this]
    simp [hb]

/-- C4 witness: with a downstream that answers 400 `invalid_grant`, the relay
forwards the encoded five-field payload and returns the 400 and the error
body verbatim. -/
theorem token_relay_roundtrip_witness :
    (oauthToken (fun _ => .respond 400 invalidGrantBody) c4Body).1 =
      some (tokenForwardPayload c4Body) ∧
    (oauthToken (fun _ => .respond 400 invalidGrantBody) c4Body).2 = ⟨400, invalidGrantBody⟩ := by
  have h := token_relay_roundtrip (fun _ => .respond 400 invalidGrantBody)
  exact ⟨h.1, h.2.2.2 400 invalidGrantBody rfl (by decide)⟩

theorem nat_beq_false {i k : Nat} (h : i ≠ k) : (i == k) = false := by
  cases hbe : (i == k)
  · rfl
  · exact absurd (eq_of_beq hbe) h

theorem lookup_cons_self (l : List (Nat × RequestContext)) (i : Nat) (c : RequestContext) :
    (((i, c) :: l).lookup i) = some c := by
  simp [List.lookup]

theorem lookup_cons_ne (l : List (Nat × RequestContext)) (i j : Nat) (c : RequestContext)
    (h : j ≠ i) : (((i, c) :: l).lookup j) = l.lookup j := by
  simp [List.lookup, nat_beq_false h]

theorem lookup_filterOut_self (l : List (Nat × RequestContext)) (i : Nat) :
    ((l.filter (fun p => p.1 != i)).lookup i) = none := by
  induction l with
  | nil => rfl
  | cons hd tl ih =>
      obtain ⟨k, c⟩ := hd
      by_cases h : k = i
      · subst h
        simpa [List.filter_cons] using ih
      · have hb : (i == k) = false := nat_beq_false (fun hh => h hh.symm)
        simp [List.filter_cons, h, List.lookup, hb, ih]

theorem lookup_filterOut_ne (l : List (Nat × RequestContext)) (i j : Nat) (h : j ≠ i) :
    ((l.filter (fun p => p.1 != i)).lookup j) = l.lookup j := by
  induction l with
  | nil => rfl
  | cons hd tl ih =>
      obtain ⟨k, c⟩ := hd
      by_cases hk : k = i
      · subst hk
        have hb : (j == k) = false := nat_beq_false h
        simp [List.filter_cons, List.lookup, hb, ih]
      · cases hjk : (j == k) <;>
          simp [List.filter_cons, hk, List.lookup, hjk, ih]

theorem getAuthHeaders_cases (c : RequestContext) (o : Option RequestContext)
    (h : o = none ∨ o = some c) :
    (∃ msg, BearerTokenAuthProvider.getAuthHeaders o = .error (.credentialUnavailable msg)) ∨
    (∃ tok, c.bearerToken = some tok ∧
      BearerTokenAuthProvider.getAuthHeaders o = .ok [("Authorization", "Bearer " ++ tok)]) := by
  rcases h with rfl | rfl
  · exact Or.inl ⟨noTokenMessage, rfl⟩
  · obtain ⟨bt⟩ := c
    cases bt with
    | none => exact Or.inl ⟨noTokenMessage, rfl⟩
    | some tok =>
        by_cases ht : tok.isEmpty = true
        · refine Or.inl ⟨noTokenMessage, ?_⟩
          unfold BearerTokenAuthProvider.getAuthHeaders
          simp [jsTruthy, ht]
        · refine Or.inr ⟨tok, rfl, ?_⟩
          unfold BearerTokenAuthProvider.getAuthHeaders
          simp only [Bool.not_eq_true] at ht
          simp [jsTruthy, ht]

theorem getElem?_some_lt {α : Type} {l : List α} {i : Nat} {a : α}
    (h : l[i]? = some a) : i < l.length := by
  by_contra hle
  rw [List.getElem?_eq_none (Nat.le_of_not_lt hle)] at h
  exact Option.noConfusion h

theorem stepTask_eq_idle (s : SchedState) (i : Nat) (h : s.tasks[i]? = none) :
    stepTask s i = s := by
  unfold stepTask
  rw [h]

theorem stepTask_eq_done (s : SchedState) (i : Nat) (t : SchedTask)
    (h : s.tasks[i]? = some t) (hp : t.program = []) : stepTask s i = s := by
  have h1 : stepTask s i =
      (match t.program with
       | [] => s
       | a :: rest => applyAction s i t a rest) := by
    unfold stepTask
    rw [h]
  rw [h1, hp]

theorem stepTask_eq_act (s : SchedState) (i : Nat) (t : SchedTask) (a : ReqAction)
    (rest : List ReqAction) (h : s.tasks[i]? = some t) (hp : t.program = a :: rest) :
    stepTask s i = applyAction s i t a rest := by
  have h1 : stepTask s i =
      (match t.program with
       | [] => s
       | a :: rest => applyAction s i t a rest) := by
    unfold stepTask
    rw [h]
  rw [h1, hp]

theorem applyAction_tasks (s : SchedState) (i : Nat) (t : SchedTask) (a : ReqAction)
    (rest : List ReqAction) :
    ∃ upd : SchedTask, (applyAction s i t a rest).tasks = s.tasks.set i upd ∧
      upd.ctx = t.ctx ∧
      (upd.log = t.log ∨
        upd.log = t.log ++ [BearerTokenAuthProvider.getAuthHeaders (s.currentContext i)]) := by
  cases a with
  | enter => exact ⟨_, rfl, rfl, Or.inl rfl⟩
  | yield => exact ⟨_, rfl, rfl, Or.inl rfl⟩
  | call => exact ⟨_, rfl, rfl, Or.inr rfl⟩
  | teardown => exact ⟨_, rfl, rfl, Or.inl rfl⟩

theorem applyAction_store (s : SchedState) (i : Nat) (t : SchedTask) (a : ReqAction)
    (rest : List ReqAction) :
    (applyAction s i t a rest).store = s.store ∨
    (applyAction s i t a rest).store = (i, t.ctx) :: s.store ∨
    (applyAction s i t a rest).store = s.store.filter (fun p => p.1 != i) := by
  cases a with
  | enter => exact Or.inr (Or.inl rfl)
  | yield => exact Or.inl rfl
  | call => exact Or.inl rfl
  | teardown => exact Or.inr (Or.inr rfl)

theorem applyAction_inv (s : SchedState) (i : Nat) (t : SchedTask) (a : ReqAction)
    (rest : List ReqAction) (ht : s.tasks[i]? = some t) (hs : SchedInv s) :
    SchedInv (applyAction s i t a rest) := by
  obtain ⟨hstore, hlogs⟩ := hs
  have hlen : i < s.tasks.length := getElem?_some_lt ht
  obtain ⟨upd, htasks, hctx, hlog⟩ := applyAction_tasks s i t a rest
  have hst := applyAction_store s i t a rest
  constructor
  · intro j u hu
    rw [htasks] at hu
    show ((applyAction s i t a rest).store.lookup j) = none ∨
      ((applyAction s i t a rest).store.lookup j) = some u.ctx
    by_cases hij : j = i
    · subst hij
      rw [List.getElem?_set_self hlen] at hu
      cases hu
      rw [hctx]
      rcases hst with hst | hst | hst <;> rw [hst]
      · exact hstore j t ht
      · exact Or.inr (lookup_cons_self s.store j t.ctx)
      · exact Or.inl (lookup_filterOut_self s.store j)
    · rw [List.getElem?_set_ne (fun hh => hij hh.symm)] at hu
      rcases hst with hst | hst | hst <;> rw [hst]
      · exact hstore j u hu
      · rw [lookup_cons_ne _ _ _ _ hij]
        exact hstore j u hu
      · rw [lookup_filterOut_ne _ _ _ hij]
        exact hstore j u hu
  · intro j u hu e he
    rw [htasks] at hu
    by_cases hij : j = i
    · subst hij
      rw [List.getElem?_set_self hlen] at hu
      cases hu
      rw [hctx]
      rcases hlog with hl | hl
      · rw [hl] at he
        exact hlogs j t ht e he
      · rw [hl] at he
        simp only [List.mem_append, List.mem_singleton] at he
        rcases he with he | rfl
        · exact hlogs j t ht e he
        · exact getAuthHeaders_cases t.ctx (s.currentContext j) (hstore j t ht)
    · rw [List.getElem?_set_ne (fun hh => hij hh.symm)] at hu
      exact hlogs j u hu e he

theorem stepTask_inv (s : SchedState) (i : Nat) (hs : SchedInv s) : SchedInv (stepTask s i) := by
  cases ht : s.tasks[i]? with
  | none => rw [stepTask_eq_idle s i ht]; exact hs
  | some t =>
      cases hp : t.program with
      | nil => rw [stepTask_eq_done s i t ht hp]; exact hs
      | cons a rest =>
          rw [stepTask_eq_act s i t a rest ht hp]
          exact applyAction_inv s i t a rest ht hs

theorem stepTask_ctx_at (s : SchedState) (i j : Nat) :
    ((stepTask s i).tasks[j]?).map SchedTask.ctx = (s.tasks[j]?).map SchedTask.ctx := by
  cases ht : s.tasks[i]? with
  | none => rw [stepTask_eq_idle s i ht]
  | some t =>
      cases hp : t.program with
      | nil => rw [stepTask_eq_done s i t ht hp]
      | cons a rest =>
          rw [stepTask_eq_act s i t a rest ht hp]
          have hlen : i < s.tasks.length := getElem?_some_lt ht
          obtain ⟨upd, htasks, hctx, _⟩ := applyAction_tasks s i t a rest
          rw [htasks]
          by_cases hij : j = i
          · subst hij
            rw [List.getElem?_set_self hlen, ht]
            simp [hctx]
          · rw [List.getElem?_set_ne (fun hh => hij hh.symm)]

theorem runSched_inv (sched : List Nat) :
    ∀ s : SchedState, SchedInv s → SchedInv (runSched s sched) := by
  induction sched with
  | nil => intro s h; exact h
  | cons i rest ih => intro s h; exact ih _ (stepTask_inv s i h)

theorem runSched_ctx_at (sched : List Nat) : ∀ (s : SchedState) (j : Nat),
    ((runSched s sched).tasks[j]?).map SchedTask.ctx = (s.tasks[j]?).map SchedTask.ctx := by
  induction sched with
  | nil => intro s j; rfl
  | cons i rest ih =>
      intro s j
      show ((runSched (stepTask s i) rest).tasks[j]?).map SchedTask.ctx = _
      rw [ih]
      exact stepTask_ctx_at s i j

theorem initState_inv (ts : List (RequestContext × List ReqAction)) :
    SchedInv (initState ts) := by
  constructor
  · intro j u _
    left
    rfl
  · intro j u hu e he
    have hlog : u.log = [] := by
      unfold initState at hu
      rw [List.getElem?_map] at hu
      obtain ⟨p, _, hpu⟩ := Option.map_eq_some'.mp hu
      rw [← hpu]
    rw [hlog] at he
    exact absurd he (List.not_mem_nil e)

theorem string_append_left_cancel {p a b : String} (h : p ++ a = p ++ b) : a = b := by
  have hd : p.data ++ a.data = p.data ++ b.data := by
    rw [← String.data_append, ← String.data_append, h]
  exact String.ext (List.append_cancel_left hd)

/-- C1: for two concurrently-handled requests with distinct bearer tokens,
under every scheduler interleaving of their suspension points, every
successful header resolution made within one request's handling extent
carries that request's own token, and the other request's bearer header
never appears in its call log. -/
theorem bearer_token_isolation (ts : List (RequestContext × List ReqAction))
    (sched : List Nat) (i j : Nat) (c1 c2 : RequestContext) (p1 p2 : List ReqAction)
    (t1 t2 : String)
    (hi : ts[i]? = some (c1, p1)) (_hj : ts[j]? = some (c2, p2))
    (ht1 : c1.bearerToken = some t1) (_ht2 : c2.bearerToken = some t2) (hne : t1 ≠ t2) :
    logUsesOnly t1 (taskLog (runSched (initState ts) sched) i) = true ∧
    (Except.ok [("Authorization", "Bearer " ++ t2)]) ∉
      taskLog (runSched (initState ts) sched) i := by
  have hinit : (((initState ts).tasks)[i]?).map SchedTask.ctx = some c1 := by
    unfold initState
    simp [List.getElem?_map, hi]
  have hctx : ((runSched (initState ts) sched).tasks[i]?).map SchedTask.ctx = some c1 := by
    rw [runSched_ctx_at]
    exact hinit
  obtain ⟨u, hu, hc⟩ := Option.map_eq_some'.mp hctx
  have hinv := runSched_inv sched (initState ts) (initState_inv ts)
  have hlog := hinv.2 i u hu
  have htl : taskLog (runSched (initState ts) sched) i = u.log := by
    unfold taskLog
    rw [hu]
  constructor
  · rw [htl]
    unfold logUsesOnly
    rw [List.all_eq_true]
    intro e he
    rcases hlog e he with ⟨msg, rfl⟩ | ⟨tok, htok, rfl⟩
    · rfl
    · rw [hc, ht1] at htok
      have : t1 = tok := Option.some.inj htok
      subst this
      simp
  · rw [htl]
    intro hmem
    rcases hlog _ hmem with ⟨msg, hmsg⟩ | ⟨tok, htok, heq⟩
    · exact Except.noConfusion hmsg
    · rw [hc, ht1] at htok
      have htt : t1 = tok := Option.some.inj htok
      simp only [Except.ok.injEq, List.cons.injEq, Prod.mk.injEq] at heq
      have hbt : "Bearer " ++ t2 = "Bearer " ++ tok := heq.1.2
      have ht2tok : t2 = tok := string_append_left_cancel hbt
      exact hne (htt.trans ht2tok.symm)

/-- C1 witness: two concrete interleaved requests with distinct tokens; the
first request's downstream calls all used its own bearer header and never the
second request's. -/
theorem bearer_token_isolation_witness :
    logUsesOnly "token-one" (taskLog (runSched (initState isoDemoTasks) isoDemoSched) 0) = true ∧
    (Except.ok [("Authorization", "Bearer " ++ "token-two")]) ∉
      taskLog (runSched (initState isoDemoTasks) isoDemoSched) 0 :=
  bearer_token_isolation isoDemoTasks isoDemoSched 0 1 ⟨some "token-one"⟩ ⟨some "token-two"⟩
    [.enter, .call, .yield, .call, .teardown] [.enter, .yield, .call, .teardown]
    "token-one" "token-two" rfl rfl rfl rfl (by decide)
